import Mathlib

/-!
Shallow embedding of the Schedulify timetable generation core
(`src/lib/timetableAlgorithm.ts`): data model, session expander,
first-fit slot assigner, conflict detector, and the full generation
pipeline, together with theorems settling the specification claims.
-/

namespace Schedulify

/-- `TimeSlot` record: day name, time label, duration in hours. -/
structure TimeSlot where
  day : String
  time : String
  duration : Nat
deriving DecidableEq, Repr

/-- The session kind tag, `'theory' | 'practical'` in the source. -/
inductive SessionType where
  | theory
  | practical
deriving DecidableEq, Repr

/-- String form of a session kind, as interpolated into entry ids. -/
def SessionType.str : SessionType → String
  | .theory => "theory"
  | .practical => "practical"

/-- `TimetableEntry` record, the session working unit of the core. -/
structure TimetableEntry where
  id : String
  courseId : String
  courseName : String
  courseCode : String
  facultyId : String
  facultyName : String
  roomId : String
  roomName : String
  programId : String
  programName : String
  timeSlot : TimeSlot
  studentCount : Nat
  type : SessionType
deriving DecidableEq, Repr

/-- The conflict kind tags of the `Constraint` interface. -/
inductive ConstraintType where
  | faculty_conflict
  | room_conflict
  | student_conflict
  | faculty_availability
  | room_availability
deriving DecidableEq, Repr

/-- The severity levels of the `Constraint` interface. -/
inductive Severity where
  | high
  | medium
  | low
deriving DecidableEq, Repr

/-- `Constraint` record: a detected conflict. -/
structure Constraint where
  type : ConstraintType
  description : String
  severity : Severity
deriving DecidableEq, Repr

/-- `GenerationResult` record returned by `generateTimetable`. -/
structure GenerationResult where
  timetable : List TimetableEntry
  conflicts : List Constraint
  success : Bool
  message : String
deriving DecidableEq, Repr

/-- `Program` catalog record (fields used by the core). -/
structure Program where
  id : String
  name : String
  type : String
deriving DecidableEq, Repr

/-- `Course` catalog record (fields used by the core). -/
structure Course where
  id : String
  name : String
  code : String
  program : String
  isElective : Bool
  semester : Int
  theoryHours : Nat
  practicalHours : Nat
  description : String
deriving DecidableEq, Repr

/-- `Faculty` catalog record; an absent `unavailableSlots` is `[]`. -/
structure Faculty where
  id : String
  name : String
  canTeachPrograms : List String
  expertise : List String
  unavailableSlots : List String
deriving DecidableEq, Repr

/-- `Room` catalog record; an absent `unavailableSlots` is `[]`. -/
structure Room where
  id : String
  name : String
  type : String
  unavailableSlots : List String
deriving DecidableEq, Repr

/-- The `WEEKDAYS` constant. -/
def WEEKDAYS : List String :=
  ["Monday", "Tuesday", "Wednesday", "Thursday", "Friday", "Saturday"]

/-- The `TIME_SLOTS` constant. -/
def TIME_SLOTS : List String :=
  ["09:00-10:00", "10:00-11:00", "11:00-12:00", "12:00-13:00",
   "13:00-14:00", "14:00-15:00", "15:00-16:00", "16:00-17:00"]

/-- Whether the first character list is a prefix of the second. -/
def isPrefixList : List Char → List Char → Bool
  | [], _ => true
  | _ :: _, [] => false
  | a :: as, b :: bs => a == b && isPrefixList as bs

/-- Whether `sub` occurs as a contiguous run inside `l`. -/
def hasInfix : List Char → List Char → Bool
  | [], sub => isPrefixList sub []
  | a :: rest, sub => isPrefixList sub (a :: rest) || hasInfix rest sub

/-- JavaScript `s.includes(sub)`: substring containment. -/
def strIncludes (s sub : String) : Bool :=
  hasInfix s.data sub.data

/-- JavaScript `s.toLowerCase()`, character by character. -/
def lowerStr (s : String) : String :=
  ⟨s.data.map Char.toLower⟩

/-- `estimateStudentCount`: fixed lookup on the program type, default 30. -/
def estimateStudentCount (program : Program) : Nat :=
  if program.type == "B.Ed" then 40
  else if program.type == "M.Ed" then 30
  else if program.type == "FYUP" then 60
  else if program.type == "ITEP" then 35
  else 30

/-- The entry literal pushed by `createCourseEntries` for ordinal `i`;
`now` stands for the `Date.now()` timestamp present in the id. -/
def mkEntry (course : Course) (program : Program) (ty : SessionType)
    (f : Faculty) (r : Room) (i : Nat) (now : Nat) : TimetableEntry :=
  { id := course.id ++ "-" ++ ty.str ++ "-" ++ toString i ++ "-" ++ toString now
    courseId := course.id
    courseName := course.name
    courseCode := course.code
    facultyId := f.id
    facultyName := f.name
    roomId := r.id
    roomName := r.name
    programId := program.id
    programName := program.name
    timeSlot := ⟨"", "", 1⟩
    studentCount := estimateStudentCount program
    type := ty }

/-- The room filter of `createCourseEntries`: practical sessions want a
Laboratory or Computer Lab, theory sessions a Classroom or Seminar Hall. -/
def roomMatches (ty : SessionType) (room : Room) : Bool :=
  match ty with
  | .practical => room.type == "Laboratory" || room.type == "Computer Lab"
  | .theory => room.type == "Classroom" || room.type == "Seminar Hall"

/-- The faculty expertise filter of `createCourseEntries`. -/
def facultyExpertiseOk (course : Course) (program : Program) (f : Faculty) : Bool :=
  f.canTeachPrograms.contains program.id &&
    f.expertise.any (fun exp =>
      strIncludes (lowerStr course.name) (lowerStr exp) ||
      strIncludes (lowerStr course.description) (lowerStr exp))

/-- Faculty selection of `createCourseEntries`: the expertise-filtered pool,
falling back to the teachable-program pool when empty, then
`suitableFaculty[0] || this.faculty[0]`. -/
def selectFaculty (facultyL : List Faculty) (course : Course) (program : Program) :
    Option Faculty :=
  let expertiseMatch := facultyL.filter (facultyExpertiseOk course program)
  let suitableFaculty :=
    if expertiseMatch.isEmpty then
      facultyL.filter (fun f => f.canTeachPrograms.contains program.id)
    else expertiseMatch
  suitableFaculty.head?.orElse (fun _ => facultyL.head?)

/-- Room selection of `createCourseEntries`:
`suitableRooms[0] || this.rooms[0]`. -/
def selectRoom (roomsL : List Room) (ty : SessionType) : Option Room :=
  (roomsL.filter (roomMatches ty)).head?.orElse (fun _ => roomsL.head?)

/-- `createCourseEntries`: select a faculty member and a room, then emit one
entry per hour with the slot unset. -/
def createCourseEntries (facultyL : List Faculty) (roomsL : List Room) (now : Nat)
    (course : Course) (program : Program) (ty : SessionType) (hours : Nat) :
    List TimetableEntry :=
  match selectFaculty facultyL course program with
  | none => []
  | some selectedFaculty =>
    match selectRoom roomsL ty with
    | none => []
    | some selectedRoom =>
      (List.range hours).map (fun i => mkEntry course program ty selectedFaculty selectedRoom i now)

/-- The course loop of `generateTimetable`: look up each course's program
(skipping the course when absent) and expand theory then practical hours. -/
def buildEntries (programs : List Program) (facultyL : List Faculty)
    (roomsL : List Room) (now : Nat) : List Course → List TimetableEntry
  | [] => []
  | course :: rest =>
    match programs.find? (fun p => p.id == course.program) with
    | none => buildEntries programs facultyL roomsL now rest
    | some program =>
      (if course.theoryHours > 0 then
        createCourseEntries facultyL roomsL now course program .theory course.theoryHours
      else []) ++
      (if course.practicalHours > 0 then
        createCourseEntries facultyL roomsL now course program .practical course.practicalHours
      else []) ++
      buildEntries programs facultyL roomsL now rest

/-- The course comparator: required before elective, then by semester;
rendered as the stable-sort ordering predicate (`courseLE a b` holds when
the comparator lets `a` come before `b`). -/
def courseLE (a b : Course) : Bool :=
  if a.isElective != b.isElective then !a.isElective
  else a.semester ≤ b.semester

/-- Stable insertion of an element in front of the first list member it may
precede under `le`. -/
def insertSorted (le : Course → Course → Bool) (x : Course) : List Course → List Course
  | [] => [x]
  | y :: ys => if le x y then x :: y :: ys else y :: insertSorted le x ys

/-- The engine's stable `Array.prototype.sort`, modelled as stable insertion
sort; for the total preorder `courseLE` this agrees with every stable sort. -/
def sortCourses (le : Course → Course → Bool) : List Course → List Course
  | [] => []
  | x :: xs => insertSorted le x (sortCourses le xs)

/-- The `day-time` occupancy key of `scheduleEntries`. -/
def slotKey (day time : String) : String :=
  day ++ "-" ++ time

/-- The `faculty-<id>` resource tag. -/
def facTag (e : TimetableEntry) : String :=
  "faculty-" ++ e.facultyId

/-- The `room-<id>` resource tag. -/
def roomTag (e : TimetableEntry) : String :=
  "room-" ++ e.roomId

/-- The 48 grid cells in the scan order of the nested loops of
`scheduleEntries`: days Monday→Saturday, times 09:00→17:00. -/
def allCells : List (String × String) :=
  WEEKDAYS.flatMap (fun d => TIME_SLOTS.map (fun t => (d, t)))

/-- `isSlotAvailable`: look the faculty and room up by id and check their
unavailable-slot lists against the time label (day-agnostic). -/
def isSlotAvailable (facultyL : List Faculty) (roomsL : List Room)
    (facultyId roomId day timeSlot : String) : Bool :=
  match facultyL.find? (fun f => f.id == facultyId),
        roomsL.find? (fun r => r.id == roomId) with
  | some f, some r =>
    !(f.unavailableSlots.contains timeSlot) && !(r.unavailableSlots.contains timeSlot)
  | _, _ => false

/-- The per-cell test of `scheduleEntries`: neither resource tag occupies the
cell and `isSlotAvailable` accepts it. -/
def cellFree (facultyL : List Faculty) (roomsL : List Room)
    (occupied : List (String × String)) (e : TimetableEntry)
    (c : String × String) : Bool :=
  !(occupied.contains (slotKey c.1 c.2, facTag e)) &&
  !(occupied.contains (slotKey c.1 c.2, roomTag e)) &&
  isSlotAvailable facultyL roomsL e.facultyId e.roomId c.1 c.2

/-- The nested-loop scan of `scheduleEntries`: first free cell, if any. -/
def findCell (facultyL : List Faculty) (roomsL : List Room)
    (occupied : List (String × String)) (e : TimetableEntry) :
    Option (String × String) :=
  allCells.find? (cellFree facultyL roomsL occupied e)

/-- The main loop of `scheduleEntries` with its occupancy accumulator:
assign each entry the first free cell and record both resource tags, or
leave the entry untouched when no cell is free. -/
def scheduleAux (facultyL : List Faculty) (roomsL : List Room) :
    List TimetableEntry → List (String × String) → List TimetableEntry
  | [], _ => []
  | e :: rest, occupied =>
    match findCell facultyL roomsL occupied e with
    | some c =>
      { e with timeSlot := ⟨c.1, c.2, 1⟩ } ::
        scheduleAux facultyL roomsL rest
          (occupied ++ [(slotKey c.1 c.2, facTag e), (slotKey c.1 c.2, roomTag e)])
    | none => e :: scheduleAux facultyL roomsL rest occupied

/-- `scheduleEntries`: run the scan starting from an empty occupancy map. -/
def scheduleEntries (facultyL : List Faculty) (roomsL : List Room)
    (entries : List TimetableEntry) : List TimetableEntry :=
  scheduleAux facultyL roomsL entries []

/-- The truthiness test `entry.timeSlot.day && entry.timeSlot.time`. -/
def slotSet (e : TimetableEntry) : Bool :=
  e.timeSlot.day != "" && e.timeSlot.time != ""

/-- The grouping key of `detectConflicts`. -/
def cellKey (e : TimetableEntry) : String :=
  slotKey e.timeSlot.day e.timeSlot.time

/-- The conflict pushed for an unscheduled entry. -/
def unschedConflict (e : TimetableEntry) : Constraint :=
  ⟨.faculty_conflict,
   "Course " ++ e.courseCode ++ " (" ++ e.courseName ++ ") could not be scheduled",
   .high⟩

/-- The conflict pushed for a repeated faculty id within a cell. -/
def facultyCollision (e : TimetableEntry) (slot : String) : Constraint :=
  ⟨.faculty_conflict,
   "Faculty " ++ e.facultyName ++ " has multiple classes at " ++ slot,
   .high⟩

/-- The conflict pushed for a repeated room id within a cell. -/
def roomCollision (e : TimetableEntry) (slot : String) : Constraint :=
  ⟨.room_conflict,
   "Room " ++ e.roomName ++ " has multiple classes at " ++ slot,
   .high⟩

/-- A session record with its identifier blanked: the identifier is the one
field allowed to differ between runs and between ordinals. -/
def eraseId (e : TimetableEntry) : TimetableEntry :=
  { e with id := "" }

/-- JavaScript `Map` update of `detectConflicts`: append the entry to its
key's group, or add a fresh group at the end on first occurrence. -/
def insertEntry : List (String × List TimetableEntry) → String → TimetableEntry →
    List (String × List TimetableEntry)
  | [], k, e => [(k, [e])]
  | (k0, es) :: rest, k, e =>
    if k0 == k then (k0, es ++ [e]) :: rest
    else (k0, es) :: insertEntry rest k e

/-- The first pass of `detectConflicts`: group scheduled entries by cell key
and push one unscheduled conflict per slotless entry, in input order. -/
def buildSlotMap : List TimetableEntry → List (String × List TimetableEntry) →
    List Constraint → List (String × List TimetableEntry) × List Constraint
  | [], m, cs => (m, cs)
  | e :: rest, m, cs =>
    if slotSet e then buildSlotMap rest (insertEntry m (cellKey e) e) cs
    else buildSlotMap rest m (cs ++ [unschedConflict e])

/-- The per-group loop of `detectConflicts`: track seen faculty and room
ids, pushing a collision conflict for every repeated id. -/
def groupConflictsAux (slot : String) :
    List TimetableEntry → List String → List String → List Constraint → List Constraint
  | [], _, _, cs => cs
  | e :: rest, fids, rids, cs =>
    let cs1 := if fids.contains e.facultyId then cs ++ [facultyCollision e slot] else cs
    let cs2 := if rids.contains e.roomId then cs1 ++ [roomCollision e slot] else cs1
    groupConflictsAux slot rest (fids ++ [e.facultyId]) (rids ++ [e.roomId]) cs2

/-- The second pass of `detectConflicts`: run the per-group loop over every
group in map order, threading the conflict accumulator. -/
def groupsFold : List (String × List TimetableEntry) → List Constraint → List Constraint
  | [], cs => cs
  | (k, es) :: rest, cs => groupsFold rest (groupConflictsAux k es [] [] cs)

/-- `detectConflicts`: unscheduled conflicts from the grouping pass, then the
per-cell collision conflicts. -/
def detectConflicts (timetable : List TimetableEntry) : List Constraint :=
  let built := buildSlotMap timetable [] []
  groupsFold built.1 built.2

/-- `generateTimetable`: validate the catalogs, filter and sort the relevant
courses, expand, assign slots, detect conflicts, and package the result.
The four catalog collections are the per-call reload of the ambient store,
passed explicitly; `now` stands for the `Date.now()` timestamp. -/
def generateTimetable (programs : List Program) (courses : List Course)
    (facultyL : List Faculty) (roomsL : List Room)
    (selectedPrograms : List String) (now : Nat) : GenerationResult :=
  if programs.length == 0 || courses.length == 0 ||
      facultyL.length == 0 || roomsL.length == 0 then
    { timetable := []
      conflicts := []
      success := false
      message := "Please ensure you have added programs, courses, faculty, and rooms before generating timetable." }
  else
    let relevantCourses := courses.filter (fun course => selectedPrograms.contains course.program)
    if relevantCourses.length == 0 then
      { timetable := []
        conflicts := []
        success := false
        message := "No courses found for selected programs." }
    else
      let sortedCourses := sortCourses courseLE relevantCourses
      let timetable := buildEntries programs facultyL roomsL now sortedCourses
      let scheduledTimetable := scheduleEntries facultyL roomsL timetable
      let detectedConflicts := detectConflicts scheduledTimetable
      { timetable := scheduledTimetable
        conflicts := detectedConflicts
        success := (detectedConflicts.filter (fun c => c.severity == .high)).length == 0
        message :=
          if detectedConflicts.length == 0 then
            "Timetable generated successfully without conflicts!"
          else
            "Timetable generated with " ++ toString detectedConflicts.length ++
              " conflicts. Please review and resolve." }

/-- The claim's wording of the slot assigner's cell condition for a session
whose catalog faculty record is `f` and room record is `r`: neither the
session's faculty tag nor its room tag occupies the cell, and the time label
(day-agnostic) is in neither unavailable-slots list. -/
def goodCellFor (occupied : List (String × String)) (e : TimetableEntry)
    (f : Faculty) (r : Room) (c : String × String) : Bool :=
  !(occupied.contains (slotKey c.1 c.2, facTag e)) &&
  !(occupied.contains (slotKey c.1 c.2, roomTag e)) &&
  !(f.unavailableSlots.contains c.2) && !(r.unavailableSlots.contains c.2)

/-- First-occurrence deduplication of a key list (the key iteration order of
a JavaScript `Map` built by repeated insertion). -/
def dedupKeys : List String → List String
  | [] => []
  | k :: rest => k :: (dedupKeys rest).filter (fun x => x != k)

/-- The group of entries carrying cell key `k`, in original order. -/
def groupOf (es : List TimetableEntry) (k : String) : List TimetableEntry :=
  es.filter (fun e => cellKey e == k)

/-- The slot map built by the first detector pass over `es`, characterized
as first-occurrence keys paired with their filtered groups. -/
def mapFor (es : List TimetableEntry) : List (String × List TimetableEntry) :=
  (dedupKeys (es.map cellKey)).map (fun k => (k, groupOf es k))

/-- Per-group conflict emission in the claim's wording: walking the group in
order, a session whose faculty id appears among the earlier sessions yields a
faculty conflict, and likewise for room ids. -/
def specGroup (slot : String) : List TimetableEntry → List TimetableEntry → List Constraint
  | _, [] => []
  | earlier, e :: rest =>
    (if (earlier.map (fun x => x.facultyId)).contains e.facultyId then
      [facultyCollision e slot] else []) ++
    (if (earlier.map (fun x => x.roomId)).contains e.roomId then
      [roomCollision e slot] else []) ++
    specGroup slot (earlier ++ [e]) rest

/-- The conflict detector in the claim's wording: one unscheduled conflict
per slotless session in input order, then, grouping the scheduled sessions by
cell in first-occurrence order, the per-group repeated-id conflicts. -/
def specDetectConflicts (timetable : List TimetableEntry) : List Constraint :=
  (timetable.filter (fun e => !slotSet e)).map unschedConflict ++
  (dedupKeys ((timetable.filter slotSet).map cellKey)).flatMap
    (fun k => specGroup k [] (groupOf (timetable.filter slotSet) k))

/-- Two sessions never share a cell key together with a faculty id or a room
id, provided both have a set slot. -/
def KeyNoClash (e1 e2 : TimetableEntry) : Prop :=
  slotSet e1 = true → slotSet e2 = true → cellKey e1 = cellKey e2 →
    e1.facultyId ≠ e2.facultyId ∧ e1.roomId ≠ e2.roomId

/-- The claim's collision-freedom: two sessions with set slots on the same
day and time label never share a faculty id or a room id. -/
def NoPairClash (e1 e2 : TimetableEntry) : Prop :=
  slotSet e1 = true → slotSet e2 = true →
  e1.timeSlot.day = e2.timeSlot.day → e1.timeSlot.time = e2.timeSlot.time →
    e1.facultyId ≠ e2.facultyId ∧ e1.roomId ≠ e2.roomId

/-- A concrete sample program used to instantiate the theorems. -/
def sampleProgram : Program :=
  ⟨"p1", "B.Ed Program", "B.Ed"⟩

/-- A concrete sample course (2 theory hours, 1 practical hour). -/
def sampleCourse : Course :=
  ⟨"c1", "Algebra", "MATH1", "p1", false, 1, 2, 1, "basic algebra"⟩

/-- A concrete sample faculty member able to teach the sample program. -/
def sampleFaculty : Faculty :=
  ⟨"f1", "Dr A", ["p1"], ["algebra"], []⟩

/-- A concrete sample classroom. -/
def sampleRoom : Room :=
  ⟨"r1", "Room 101", "Classroom", []⟩

/-- A concrete unscheduled sample session. -/
def sampleEntry : TimetableEntry :=
  mkEntry sampleCourse sampleProgram .theory sampleFaculty sampleRoom 0 0

/-- A concrete course referencing a program id absent from the catalog. -/
def orphanCourse : Course :=
  ⟨"c9", "Botany", "BIO9", "zz", false, 1, 1, 0, "plants"⟩

/-! ### Basic helper lemmas -/

theorem contains_true_mem {α : Type} [BEq α] [LawfulBEq α] {l : List α} {a : α}
    (h : l.contains a = true) : a ∈ l := by
  simpa [List.elem_iff] using h

theorem contains_false_not_mem {α : Type} [BEq α] [LawfulBEq α] {l : List α} {a : α}
    (h : l.contains a = false) : a ∉ l := by
  intro hmem
  have htrue : l.contains a = true := by
    simpa [List.contains, List.elem_iff] using hmem
  rw [htrue] at h
  exact Bool.noConfusion h

theorem bool_ne_true {b : Bool} (h : b = false) : ¬ (b = true) := by
  rw [h]
  exact fun hx => Bool.noConfusion hx

theorem str_append_left_cancel {p a b : String} (h : p ++ a = p ++ b) : a = b := by
  have h2 : (p ++ a).data = (p ++ b).data := by rw [h]
  rw [String.data_append, String.data_append] at h2
  exact String.ext (List.append_cancel_left h2)

theorem facTag_inj {e1 e2 : TimetableEntry} (h : facTag e1 = facTag e2) :
    e1.facultyId = e2.facultyId :=
  str_append_left_cancel h

theorem roomTag_inj {e1 e2 : TimetableEntry} (h : roomTag e1 = roomTag e2) :
    e1.roomId = e2.roomId :=
  str_append_left_cancel h

theorem allCells_components_nonempty : ∀ c ∈ allCells, (c.1 != "" && c.2 != "") = true := by
  decide

theorem length_beq_zero_false {α : Type} {l : List α} (h : l ≠ []) :
    (l.length == 0) = false := by
  cases l with
  | nil => exact absurd rfl h
  | cons a as => rfl

/-- The scheduled timetable of the main path of `generateTimetable`. -/
def mainTimetable (programs : List Program) (courses : List Course)
    (facultyL : List Faculty) (roomsL : List Room) (sel : List String) (now : Nat) :
    List TimetableEntry :=
  scheduleEntries facultyL roomsL
    (buildEntries programs facultyL roomsL now
      (sortCourses courseLE (courses.filter (fun course => sel.contains course.program))))

/-- Under the hypotheses of the main path, `generateTimetable` unfolds to the
expand/assign/detect pipeline record. -/
theorem generateTimetable_main (programs : List Program) (courses : List Course)
    (facultyL : List Faculty) (roomsL : List Room) (sel : List String) (now : Nat)
    (hp : programs ≠ []) (hc : courses ≠ []) (hf : facultyL ≠ []) (hr : roomsL ≠ [])
    (hrel : courses.filter (fun course => sel.contains course.program) ≠ []) :
    generateTimetable programs courses facultyL roomsL sel now =
      { timetable := mainTimetable programs courses facultyL roomsL sel now
        conflicts := detectConflicts (mainTimetable programs courses facultyL roomsL sel now)
        success :=
          ((detectConflicts (mainTimetable programs courses facultyL roomsL sel now)).filter
            (fun c => c.severity == .high)).length == 0
        message :=
          if (detectConflicts (mainTimetable programs courses facultyL roomsL sel now)).length == 0 then
            "Timetable generated successfully without conflicts!"
          else
            "Timetable generated with " ++
              toString (detectConflicts (mainTimetable programs courses facultyL roomsL sel now)).length ++
              " conflicts. Please review and resolve." } := by
  have h1 := length_beq_zero_false hp
  have h2 := length_beq_zero_false hc
  have h3 := length_beq_zero_false hf
  have h4 := length_beq_zero_false hr
  have h5 := length_beq_zero_false hrel
  have hcond1 : ¬ ((programs.length == 0 || courses.length == 0 ||
      facultyL.length == 0 || roomsL.length == 0) = true) := by
    apply bool_ne_true
    rw [h1, h2, h3, h4]
    rfl
  have hcond2 := bool_ne_true h5
  simp only [generateTimetable, if_neg hcond1, if_neg hcond2]
  rfl

/-! ### Claim C5: empty catalogs and empty course selections -/

/-- C5: if any of the four catalog collections is empty, or no course belongs
to any selected program, generation returns an empty session list, an empty
conflict list, `success = false`, and one of the two guidance messages; being
a total function, it raises nothing. -/
theorem claim5_empty_input_handling (programs : List Program) (courses : List Course)
    (facultyL : List Faculty) (roomsL : List Room) (sel : List String) (now : Nat)
    (h : programs = [] ∨ courses = [] ∨ facultyL = [] ∨ roomsL = [] ∨
      courses.filter (fun course => sel.contains course.program) = []) :
    (generateTimetable programs courses facultyL roomsL sel now).timetable = [] ∧
    (generateTimetable programs courses facultyL roomsL sel now).conflicts = [] ∧
    (generateTimetable programs courses facultyL roomsL sel now).success = false ∧
    ((generateTimetable programs courses facultyL roomsL sel now).message =
        "Please ensure you have added programs, courses, faculty, and rooms before generating timetable." ∨
      (generateTimetable programs courses facultyL roomsL sel now).message =
        "No courses found for selected programs.") := by
  by_cases hempty : (programs.length == 0 || courses.length == 0 ||
      facultyL.length == 0 || roomsL.length == 0) = true
  · simp only [generateTimetable, if_pos hempty]
    exact ⟨trivial, trivial, trivial, Or.inl trivial⟩
  · have hrel : courses.filter (fun course => sel.contains course.program) = [] := by
      rcases h with h | h | h | h | h
      · exact absurd (by simp [h]) hempty
      · exact absurd (by simp [h]) hempty
      · exact absurd (by simp [h]) hempty
      · exact absurd (by simp [h]) hempty
      · exact h
    have hrel2 : (((courses.filter (fun course => sel.contains course.program)).length == 0) = true) := by
      rw [hrel]
      rfl
    simp only [generateTimetable, if_neg hempty, if_pos hrel2]
    exact ⟨trivial, trivial, trivial, Or.inr trivial⟩

/-! ### Claim C4: the success flag (corrected) -/

/-- C4 counterexample: with all catalogs empty, the result has no
high-severity conflict yet `success` is `false`, refuting the claim that
`success` is true exactly when no high-severity conflict exists. -/
theorem claim4_counterexample :
    ¬ (((generateTimetable [] [] [] [] [] 0).success = true) ↔
      (∀ c ∈ (generateTimetable [] [] [] [] [] 0).conflicts, c.severity ≠ Severity.high)) := by
  decide

/-- C4 amended: once generation passes the input-validation early returns
(all four catalogs nonempty and at least one course in a selected program),
`success` is true exactly when the conflict list has no high-severity entry. -/
theorem claim4_success_iff_no_high (programs : List Program) (courses : List Course)
    (facultyL : List Faculty) (roomsL : List Room) (sel : List String) (now : Nat)
    (hp : programs ≠ []) (hc : courses ≠ []) (hf : facultyL ≠ []) (hr : roomsL ≠ [])
    (hrel : courses.filter (fun course => sel.contains course.program) ≠ []) :
    (generateTimetable programs courses facultyL roomsL sel now).success = true ↔
      ∀ c ∈ (generateTimetable programs courses facultyL roomsL sel now).conflicts,
        c.severity ≠ Severity.high := by
  rw [generateTimetable_main programs courses facultyL roomsL sel now hp hc hf hr hrel]
  show (((detectConflicts _).filter (fun c => c.severity == .high)).length == 0) = true ↔ _
  simp [List.length_eq_zero, List.filter_eq_nil_iff]

/-! ### Selection lemmas for the Session Expander -/

theorem orElse_mem {α : Type} (sub l : List α) (hsub : ∀ x ∈ sub, x ∈ l) (hl : l ≠ [])
    (o : Option α) (ho : o = sub.head?.orElse (fun _ => l.head?)) :
    ∃ a, o = some a ∧ a ∈ l := by
  cases sub with
  | nil =>
    cases l with
    | nil => exact absurd rfl hl
    | cons x xs => exact ⟨x, ho, List.mem_cons_self x xs⟩
  | cons s ss => exact ⟨s, ho, hsub s (List.mem_cons_self s ss)⟩

theorem selectFaculty_total (facultyL : List Faculty) (c : Course) (p : Program)
    (hf : facultyL ≠ []) : ∃ f, selectFaculty facultyL c p = some f ∧ f ∈ facultyL := by
  apply orElse_mem _ _ _ hf
  · rfl
  · intro x hx
    by_cases hcase : (facultyL.filter (facultyExpertiseOk c p)).isEmpty
    · rw [if_pos hcase] at hx
      exact (List.mem_filter.mp hx).1
    · rw [if_neg hcase] at hx
      exact (List.mem_filter.mp hx).1

theorem selectRoom_total (roomsL : List Room) (ty : SessionType)
    (hr : roomsL ≠ []) : ∃ r, selectRoom roomsL ty = some r ∧ r ∈ roomsL := by
  apply orElse_mem _ _ _ hr
  · rfl
  · intro x hx
    exact (List.mem_filter.mp hx).1

theorem selectRoom_of_filter_cons {roomsL : List Room} {ty : SessionType}
    {r0 : Room} {rs : List Room} (h : roomsL.filter (roomMatches ty) = r0 :: rs) :
    selectRoom roomsL ty = some r0 := by
  simp only [selectRoom, h]
  rfl

theorem selectRoom_of_filter_nil {roomsL : List Room} {ty : SessionType}
    (h : roomsL.filter (roomMatches ty) = []) :
    selectRoom roomsL ty = roomsL.head? := by
  simp only [selectRoom, h]
  rfl

theorem createCourseEntries_eq_sel (facultyL : List Faculty) (roomsL : List Room)
    (now : Nat) (c : Course) (p : Program) (ty : SessionType) (hours : Nat)
    (selF : Faculty) (selR : Room)
    (hsF : selectFaculty facultyL c p = some selF)
    (hsR : selectRoom roomsL ty = some selR) :
    createCourseEntries facultyL roomsL now c p ty hours =
      (List.range hours).map (fun i => mkEntry c p ty selF selR i now) := by
  simp only [createCourseEntries, hsF, hsR]

theorem createCourseEntries_zero (facultyL : List Faculty) (roomsL : List Room)
    (now : Nat) (c : Course) (p : Program) (ty : SessionType) :
    createCourseEntries facultyL roomsL now c p ty 0 = [] := by
  simp only [createCourseEntries]
  cases selectFaculty facultyL c p with
  | none => rfl
  | some f =>
    cases selectRoom roomsL ty with
    | none => rfl
    | some r => rfl

/-- The cons step of the course loop when the program is found. -/
theorem buildEntries_cons_found (programs : List Program) (facultyL : List Faculty)
    (roomsL : List Room) (now : Nat) (c : Course) (rest : List Course) (p : Program)
    (hp : programs.find? (fun q => q.id == c.program) = some p) :
    buildEntries programs facultyL roomsL now (c :: rest) =
      createCourseEntries facultyL roomsL now c p .theory c.theoryHours ++
      createCourseEntries facultyL roomsL now c p .practical c.practicalHours ++
      buildEntries programs facultyL roomsL now rest := by
  simp only [buildEntries, hp]
  rcases Nat.eq_zero_or_pos c.theoryHours with ht | ht
  · rcases Nat.eq_zero_or_pos c.practicalHours with hpr | hpr
    · rw [ht, hpr, if_neg (by simp), if_neg (by simp),
        createCourseEntries_zero, createCourseEntries_zero]
    · rw [ht, if_neg (by simp), if_pos hpr, createCourseEntries_zero]
  · rcases Nat.eq_zero_or_pos c.practicalHours with hpr | hpr
    · rw [hpr, if_pos ht, if_neg (by simp), createCourseEntries_zero]
    · rw [if_pos ht, if_pos hpr]

/-! ### Claim C2: exact session counts from the expander -/

/-- C2: for a course whose owning program is found in the catalog, with at
least one faculty member and one room, the expander emits exactly
`theoryHours` theory sessions and `practicalHours` practical sessions, each
batch a range-indexed family of records identical except for the ordinal in
the identifier, each bound to one faculty and one room, with the slot unset. -/
theorem claim2_expander_session_counts (programs : List Program)
    (facultyL : List Faculty) (roomsL : List Room) (now : Nat)
    (c : Course) (p : Program) (rest : List Course)
    (hf : facultyL ≠ []) (hr : roomsL ≠ [])
    (hp : programs.find? (fun q => q.id == c.program) = some p) :
    ∃ ft rt fp rp, ft ∈ facultyL ∧ rt ∈ roomsL ∧ fp ∈ facultyL ∧ rp ∈ roomsL ∧
      createCourseEntries facultyL roomsL now c p .theory c.theoryHours =
        (List.range c.theoryHours).map (fun i => mkEntry c p .theory ft rt i now) ∧
      createCourseEntries facultyL roomsL now c p .practical c.practicalHours =
        (List.range c.practicalHours).map (fun i => mkEntry c p .practical fp rp i now) ∧
      (createCourseEntries facultyL roomsL now c p .theory c.theoryHours).length =
        c.theoryHours ∧
      (createCourseEntries facultyL roomsL now c p .practical c.practicalHours).length =
        c.practicalHours ∧
      (∀ e ∈ createCourseEntries facultyL roomsL now c p .theory c.theoryHours,
        e.type = .theory ∧ e.timeSlot = ⟨"", "", 1⟩ ∧ e.courseId = c.id ∧
          e.facultyId = ft.id ∧ e.roomId = rt.id ∧
          eraseId e = eraseId (mkEntry c p .theory ft rt 0 now)) ∧
      (∀ e ∈ createCourseEntries facultyL roomsL now c p .practical c.practicalHours,
        e.type = .practical ∧ e.timeSlot = ⟨"", "", 1⟩ ∧ e.courseId = c.id ∧
          e.facultyId = fp.id ∧ e.roomId = rp.id ∧
          eraseId e = eraseId (mkEntry c p .practical fp rp 0 now)) ∧
      buildEntries programs facultyL roomsL now (c :: rest) =
        createCourseEntries facultyL roomsL now c p .theory c.theoryHours ++
        createCourseEntries facultyL roomsL now c p .practical c.practicalHours ++
        buildEntries programs facultyL roomsL now rest := by
  obtain ⟨ft, hft, hmemft⟩ := selectFaculty_total facultyL c p hf
  obtain ⟨rt, hrt, hmemrt⟩ := selectRoom_total roomsL .theory hr
  obtain ⟨rp, hrp, hmemrp⟩ := selectRoom_total roomsL .practical hr
  have et := createCourseEntries_eq_sel facultyL roomsL now c p .theory c.theoryHours ft rt hft hrt
  have ep := createCourseEntries_eq_sel facultyL roomsL now c p .practical c.practicalHours ft rp hft hrp
  refine ⟨ft, rt, ft, rp, hmemft, hmemrt, hmemft, hmemrp, et, ep, ?_, ?_, ?_, ?_, ?_⟩
  · rw [et, List.length_map, List.length_range]
  · rw [ep, List.length_map, List.length_range]
  · intro e he
    rw [et] at he
    obtain ⟨i, hi, rfl⟩ := List.mem_map.mp he
    exact ⟨rfl, rfl, rfl, rfl, rfl, rfl⟩
  · intro e he
    rw [ep] at he
    obtain ⟨i, hi, rfl⟩ := List.mem_map.mp he
    exact ⟨rfl, rfl, rfl, rfl, rfl, rfl⟩
  · exact buildEntries_cons_found programs facultyL roomsL now c rest p hp

/-! ### Claim C7: kind-appropriate room categories -/

/-- C7: every generated session is bound to a catalog room; when the catalog
holds at least one kind-appropriate room (practical → Laboratory or Computer
Lab, theory → Classroom or Seminar Hall) the bound room is kind-appropriate,
and only when none exists does the session fall back to the catalog's first
room. -/
theorem claim7_room_category (facultyL : List Faculty) (roomsL : List Room)
    (now : Nat) (c : Course) (p : Program) (ty : SessionType) (hours : Nat)
    (e : TimetableEntry)
    (he : e ∈ createCourseEntries facultyL roomsL now c p ty hours) :
    ∃ room, room ∈ roomsL ∧ e.roomId = room.id ∧ e.roomName = room.name ∧
      ((∃ r2 ∈ roomsL, roomMatches ty r2 = true) → roomMatches ty room = true) ∧
      ((∀ r2 ∈ roomsL, roomMatches ty r2 = false) → roomsL.head? = some room) := by
  rcases hsF : selectFaculty facultyL c p with _ | selF
  · rw [createCourseEntries, hsF] at he
    exact absurd he (List.not_mem_nil e)
  rcases hsR : selectRoom roomsL ty with _ | selR
  · rw [createCourseEntries, hsF, hsR] at he
    exact absurd he (List.not_mem_nil e)
  have heq := createCourseEntries_eq_sel facultyL roomsL now c p ty hours selF selR hsF hsR
  rw [heq] at he
  obtain ⟨i, hi, rfl⟩ := List.mem_map.mp he
  rcases hfil : roomsL.filter (roomMatches ty) with _ | ⟨r0, rs⟩
  · have hhead : roomsL.head? = some selR := by
      rw [← selectRoom_of_filter_nil hfil, hsR]
    have hmem : selR ∈ roomsL := by
      cases roomsL with
      | nil => exact absurd hhead (by simp)
      | cons x xs =>
        have : x = selR := by simpa using hhead
        rw [← this]
        exact List.mem_cons_self x xs
    refine ⟨selR, hmem, rfl, rfl, ?_, fun _ => hhead⟩
    intro ⟨r2, hr2mem, hr2⟩
    have : roomMatches ty r2 = false := by
      have := List.filter_eq_nil_iff.mp hfil r2 hr2mem
      simpa using this
    rw [hr2] at this
    exact Bool.noConfusion this
  · have hsel : selR = r0 := by
      have := selectRoom_of_filter_cons hfil
      rw [hsR] at this
      exact (Option.some.injEq _ _).mp this.symm |>.symm
    have hr0mem : r0 ∈ roomsL := by
      have : r0 ∈ roomsL.filter (roomMatches ty) := by
        rw [hfil]
        exact List.mem_cons_self r0 rs
      exact (List.mem_filter.mp this).1
    have hr0match : roomMatches ty r0 = true := by
      have : r0 ∈ roomsL.filter (roomMatches ty) := by
        rw [hfil]
        exact List.mem_cons_self r0 rs
      exact (List.mem_filter.mp this).2
    refine ⟨r0, hr0mem, by rw [hsel]; rfl, by rw [hsel]; rfl, fun _ => hr0match, ?_⟩
    intro hall
    have := hall r0 hr0mem
    rw [hr0match] at this
    exact Bool.noConfusion this

/-! ### Claim C9: courses with an unknown program are skipped silently -/

/-- C9: a course whose program reference matches no catalog program id
contributes nothing to the session list — the course loop skips it without
any session, conflict record, flag, or message; downstream output is
computed from the sessions alone and therefore carries no trace of it. -/
theorem claim9_orphan_course_skipped (programs : List Program)
    (facultyL : List Faculty) (roomsL : List Room) (now : Nat)
    (c : Course) (rest : List Course)
    (h : ∀ p ∈ programs, p.id ≠ c.program) :
    buildEntries programs facultyL roomsL now (c :: rest) =
      buildEntries programs facultyL roomsL now rest := by
  have hfind : programs.find? (fun q => q.id == c.program) = none := by
    rw [List.find?_eq_none]
    intro p hp
    simp [h p hp]
  simp only [buildEntries, hfind]

/-! ### Claim C3: first-fit cell selection -/

theorem find?_eq_some_split {α : Type} {p : α → Bool} {l : List α} {a : α}
    (h : l.find? p = some a) :
    ∃ pre post, l = pre ++ a :: post ∧ (∀ x ∈ pre, p x = false) ∧ p a = true := by
  induction l with
  | nil => exact absurd h (by simp)
  | cons x xs ih =>
    cases hx : p x with
    | true =>
      rw [List.find?_cons_of_pos _ hx] at h
      have hax : x = a := by simpa using h
      subst hax
      exact ⟨[], xs, rfl, by intro y hy; exact absurd hy (List.not_mem_nil y), hx⟩
    | false =>
      rw [List.find?_cons_of_neg _ (by simp [hx])] at h
      obtain ⟨pre, post, hsplit, hpre, hpa⟩ := ih h
      refine ⟨x :: pre, post, by rw [hsplit]; rfl, ?_, hpa⟩
      intro y hy
      rcases List.mem_cons.mp hy with hy | hy
      · rw [hy]
        exact hx
      · exact hpre y hy

theorem cellFree_eq_goodCellFor (facultyL : List Faculty) (roomsL : List Room)
    (occupied : List (String × String)) (e : TimetableEntry) (f : Faculty) (r : Room)
    (hf : facultyL.find? (fun x => x.id == e.facultyId) = some f)
    (hr : roomsL.find? (fun x => x.id == e.roomId) = some r) :
    ∀ c, cellFree facultyL roomsL occupied e c = goodCellFor occupied e f r c := by
  intro c
  simp only [cellFree, goodCellFor, isSlotAvailable, hf, hr]
  rw [← Bool.and_assoc]

/-- C3: for each session the assigner processes whose faculty and room ids
resolve in the catalogs, either some cell in the fixed Monday→Saturday,
09:00→17:00 scan order satisfies the availability condition — then the
session receives the first such cell, its tags are recorded, and processing
continues — or no cell among the 48 does, and the session's slot is left
untouched while processing continues with the next session. -/
theorem claim3_first_fit_cell (facultyL : List Faculty) (roomsL : List Room)
    (occupied : List (String × String)) (e : TimetableEntry)
    (rest : List TimetableEntry) (f : Faculty) (r : Room)
    (hf : facultyL.find? (fun x => x.id == e.facultyId) = some f)
    (hr : roomsL.find? (fun x => x.id == e.roomId) = some r) :
    (∃ d t pre post,
      allCells = pre ++ (d, t) :: post ∧
      (∀ c ∈ pre, goodCellFor occupied e f r c = false) ∧
      goodCellFor occupied e f r (d, t) = true ∧
      scheduleAux facultyL roomsL (e :: rest) occupied =
        { e with timeSlot := ⟨d, t, 1⟩ } ::
          scheduleAux facultyL roomsL rest
            (occupied ++ [(slotKey d t, facTag e), (slotKey d t, roomTag e)])) ∨
    ((∀ c ∈ allCells, goodCellFor occupied e f r c = false) ∧
      scheduleAux facultyL roomsL (e :: rest) occupied =
        e :: scheduleAux facultyL roomsL rest occupied) := by
  have hcf := cellFree_eq_goodCellFor facultyL roomsL occupied e f r hf hr
  cases hfind : findCell facultyL roomsL occupied e with
  | some c =>
    left
    obtain ⟨pre, post, hsplit, hpre, hpa⟩ := find?_eq_some_split hfind
    refine ⟨c.1, c.2, pre, post, ?_, ?_, ?_, ?_⟩
    · rw [Prod.mk.eta]
      exact hsplit
    · intro x hx
      rw [← hcf x]
      exact hpre x hx
    · rw [Prod.mk.eta, ← hcf c]
      exact hpa
    · simp only [scheduleAux, hfind]
  | none =>
    right
    constructor
    · intro c hc
      have := List.find?_eq_none.mp hfind c hc
      rw [hcf c] at this
      exact Bool.eq_false_iff.mpr this
    · simp only [scheduleAux, hfind]

/-! ### Slot-map and dedup machinery for the Conflict Detector -/

theorem contains_eq_decide {α : Type} [BEq α] [LawfulBEq α] (l : List α) (a : α) :
    l.contains a = decide (a ∈ l) := by
  cases hc : l.contains a with
  | true => simp [contains_true_mem hc]
  | false => simp [contains_false_not_mem hc]

theorem dedupKeys_mem {xs : List String} {a : String} :
    a ∈ dedupKeys xs ↔ a ∈ xs := by
  induction xs with
  | nil => simp [dedupKeys]
  | cons k xs ih =>
    simp only [dedupKeys, List.mem_cons, List.mem_filter, bne_iff_ne, ih]
    by_cases ha : a = k
    · simp [ha]
    · simp [ha]

theorem dedupKeys_nodup (xs : List String) : (dedupKeys xs).Nodup := by
  induction xs with
  | nil => exact List.nodup_nil
  | cons k xs ih =>
    rw [dedupKeys, List.nodup_cons]
    constructor
    · intro hmem
      have := (List.mem_filter.mp hmem).2
      simp at this
    · exact List.Nodup.filter _ ih

theorem dedupKeys_append_singleton (xs : List String) (k : String) :
    dedupKeys (xs ++ [k]) =
      if k ∈ xs then dedupKeys xs else dedupKeys xs ++ [k] := by
  induction xs with
  | nil => simp [dedupKeys]
  | cons x xs ih =>
    show dedupKeys (x :: (xs ++ [k])) = _
    rw [dedupKeys, ih]
    by_cases hk : k ∈ xs
    · rw [if_pos hk, if_pos (List.mem_cons.mpr (Or.inr hk))]
      rfl
    · rw [if_neg hk]
      by_cases hx : k = x
      · rw [if_pos (List.mem_cons.mpr (Or.inl hx))]
        rw [List.filter_append]
        simp [dedupKeys, hx]
      · rw [if_neg (by simp [hx, hk])]
        rw [List.filter_append]
        simp only [dedupKeys, List.cons_append]
        have : List.filter (fun y => y != x) [k] = [k] := by
          simp [hx]
        rw [this]

theorem insertEntry_map_not_mem (ks : List String)
    (g : String → List TimetableEntry) (k0 : String) (e : TimetableEntry)
    (h : k0 ∉ ks) :
    insertEntry (ks.map (fun k => (k, g k))) k0 e =
      ks.map (fun k => (k, g k)) ++ [(k0, [e])] := by
  induction ks with
  | nil => rfl
  | cons k ks ih =>
    have hk : (k == k0) = false :=
      beq_eq_false_iff_ne.mpr (fun hkk => h (hkk ▸ List.mem_cons_self k ks))
    simp only [List.map_cons, insertEntry]
    rw [if_neg (bool_ne_true hk), ih (fun hkk => h (List.mem_cons.mpr (Or.inr hkk))),
      List.cons_append]

theorem insertEntry_map_mem (ks : List String)
    (g : String → List TimetableEntry) (k0 : String) (e : TimetableEntry)
    (hmem : k0 ∈ ks) (hnd : ks.Nodup) :
    insertEntry (ks.map (fun k => (k, g k))) k0 e =
      ks.map (fun k => (k, if k == k0 then g k ++ [e] else g k)) := by
  induction ks with
  | nil => cases hmem
  | cons k ks ih =>
    rcases List.mem_cons.mp hmem with hk | hk
    · have hbeq : (k == k0) = true := beq_iff_eq.mpr hk.symm
      simp only [List.map_cons, insertEntry]
      rw [if_pos hbeq, if_pos hbeq]
      congr 1
      apply List.map_congr_left
      intro k2 hk2
      have hne : (k2 == k0) = false := by
        apply beq_eq_false_iff_ne.mpr
        intro hkk
        exact (List.nodup_cons.mp hnd).1 (by rw [← hk, ← hkk]; exact hk2)
      rw [if_neg (bool_ne_true hne)]
    · have hne : (k == k0) = false := by
        apply beq_eq_false_iff_ne.mpr
        intro hkk
        exact (List.nodup_cons.mp hnd).1 (hkk ▸ hk)
      simp only [List.map_cons, insertEntry]
      rw [if_neg (bool_ne_true hne), if_neg (bool_ne_true hne),
        ih hk (List.nodup_cons.mp hnd).2]

theorem groupOf_append_singleton (pre : List TimetableEntry) (e : TimetableEntry)
    (k : String) :
    groupOf (pre ++ [e]) k =
      groupOf pre k ++ (if cellKey e == k then [e] else []) := by
  unfold groupOf
  rw [List.filter_append]
  congr 1
  cases hbeq : cellKey e == k <;> simp [List.filter, hbeq]

theorem insertEntry_mapFor (pre : List TimetableEntry) (e : TimetableEntry) :
    insertEntry (mapFor pre) (cellKey e) e = mapFor (pre ++ [e]) := by
  unfold mapFor
  rw [List.map_append]
  simp only [List.map_cons, List.map_nil]
  rw [dedupKeys_append_singleton]
  by_cases hk : cellKey e ∈ pre.map cellKey
  · rw [if_pos hk]
    have hk2 : cellKey e ∈ dedupKeys (pre.map cellKey) := dedupKeys_mem.mpr hk
    rw [insertEntry_map_mem _ _ _ _ hk2 (dedupKeys_nodup _)]
    apply List.map_congr_left
    intro k hkmem
    rw [groupOf_append_singleton]
    by_cases heq : k = cellKey e
    · simp [heq]
    · have h1 : (cellKey e == k) = false :=
        beq_eq_false_iff_ne.mpr (fun h2 => heq h2.symm)
      have h2 : (k == cellKey e) = false := beq_eq_false_iff_ne.mpr heq
      simp [h1, h2]
  · rw [if_neg hk]
    rw [insertEntry_map_not_mem _ _ _ _ (fun hc => hk (dedupKeys_mem.mp hc))]
    rw [List.map_append]
    congr 1
    · apply List.map_congr_left
      intro k hkmem
      rw [groupOf_append_singleton]
      have hne : (cellKey e == k) = false := by
        apply beq_eq_false_iff_ne.mpr
        intro hkk
        exact hk (dedupKeys_mem.mp (by rw [hkk]; exact hkmem))
      rw [hne]
      simp
    · simp only [List.map_cons, List.map_nil]
      have hpre : groupOf pre (cellKey e) = [] := by
        unfold groupOf
        rw [List.filter_eq_nil_iff]
        intro a ha hcontra
        exact hk (List.mem_map.mpr ⟨a, ha, beq_iff_eq.mp (by simpa using hcontra)⟩)
      rw [groupOf_append_singleton, hpre]
      simp

theorem buildSlotMap_run (es : List TimetableEntry) :
    ∀ (pre : List TimetableEntry) (cs : List Constraint),
    buildSlotMap es (mapFor pre) cs =
      (mapFor (pre ++ es.filter slotSet),
       cs ++ (es.filter (fun e => !slotSet e)).map unschedConflict) := by
  induction es with
  | nil =>
    intro pre cs
    simp [buildSlotMap]
  | cons e rest ih =>
    intro pre cs
    cases hse : slotSet e with
    | true =>
      simp only [buildSlotMap, hse, if_pos, List.filter_cons, Bool.not_true]
      rw [insertEntry_mapFor, ih (pre ++ [e]) cs]
      simp [List.append_assoc]
    | false =>
      simp only [buildSlotMap, hse, List.filter_cons, Bool.not_false]
      rw [ih pre (cs ++ [unschedConflict e])]
      simp [List.append_assoc]

theorem buildSlotMap_nil_run (tt : List TimetableEntry) :
    buildSlotMap tt [] [] =
      (mapFor (tt.filter slotSet),
       (tt.filter (fun e => !slotSet e)).map unschedConflict) := by
  have h := buildSlotMap_run tt [] []
  simpa [mapFor, dedupKeys, groupOf] using h

/-! ### Group-conflict lemmas and the detector spec equality -/

theorem not_eq_true_bool {b : Bool} (h : (!b) = true) : b = false := by
  cases b with
  | false => rfl
  | true => exact Bool.noConfusion h

theorem groupAux_eq_spec (slot : String) (es : List TimetableEntry) :
    ∀ (earlier : List TimetableEntry) (cs : List Constraint),
    groupConflictsAux slot es (earlier.map (fun x => x.facultyId))
        (earlier.map (fun x => x.roomId)) cs =
      cs ++ specGroup slot earlier es := by
  induction es with
  | nil =>
    intro earlier cs
    simp [groupConflictsAux, specGroup]
  | cons e rest ih =>
    intro earlier cs
    simp only [groupConflictsAux, specGroup]
    have hmapf : (earlier.map (fun x => x.facultyId)) ++ [e.facultyId] =
        (earlier ++ [e]).map (fun x => x.facultyId) := by simp
    have hmapr : (earlier.map (fun x => x.roomId)) ++ [e.roomId] =
        (earlier ++ [e]).map (fun x => x.roomId) := by simp
    rw [hmapf, hmapr, ih]
    cases h1 : (earlier.map (fun x => x.facultyId)).contains e.facultyId <;>
      cases h2 : (earlier.map (fun x => x.roomId)).contains e.roomId <;>
      simp [h1, h2, List.append_assoc]

theorem groupsFold_eq_flatMap (m : List (String × List TimetableEntry)) :
    ∀ (cs : List Constraint),
    groupsFold m cs = cs ++ m.flatMap (fun kv => specGroup kv.1 [] kv.2) := by
  induction m with
  | nil => intro cs; simp [groupsFold]
  | cons kv rest ih =>
    intro cs
    obtain ⟨k, es⟩ := kv
    simp only [groupsFold]
    have haux : groupConflictsAux k es [] [] cs = cs ++ specGroup k [] es := by
      simpa using groupAux_eq_spec k es [] cs
    rw [haux, ih]
    simp [List.append_assoc]

theorem detectConflicts_eq_spec (tt : List TimetableEntry) :
    detectConflicts tt = specDetectConflicts tt := by
  simp only [detectConflicts, buildSlotMap_nil_run]
  rw [groupsFold_eq_flatMap]
  unfold specDetectConflicts
  congr 1
  unfold mapFor
  rw [List.flatMap_map]

theorem flatMap_nil_of {α β : Type} {l : List α} {f : α → List β}
    (h : ∀ x ∈ l, f x = []) : l.flatMap f = [] := by
  induction l with
  | nil => rfl
  | cons x xs ih =>
    rw [List.flatMap_cons, h x (List.mem_cons_self x xs),
      ih (fun a ha => h a (List.mem_cons.mpr (Or.inr ha)))]
    rfl

theorem specGroup_nil (slot : String) (es : List TimetableEntry) :
    ∀ (earlier : List TimetableEntry),
    List.Pairwise (fun a b => a.facultyId ≠ b.facultyId ∧ a.roomId ≠ b.roomId) es →
    (∀ e ∈ es, e.facultyId ∉ earlier.map (fun x => x.facultyId) ∧
      e.roomId ∉ earlier.map (fun x => x.roomId)) →
    specGroup slot earlier es = [] := by
  induction es with
  | nil => intro earlier _ _; rfl
  | cons e rest ih =>
    intro earlier hpw hnm
    have h1 : ((earlier.map (fun x => x.facultyId)).contains e.facultyId) = false := by
      rw [contains_eq_decide]
      exact decide_eq_false (hnm e (List.mem_cons_self e rest)).1
    have h2 : ((earlier.map (fun x => x.roomId)).contains e.roomId) = false := by
      rw [contains_eq_decide]
      exact decide_eq_false (hnm e (List.mem_cons_self e rest)).2
    rw [specGroup, if_neg (bool_ne_true h1), if_neg (bool_ne_true h2)]
    simp only [List.nil_append]
    apply ih
    · exact (List.pairwise_cons.mp hpw).2
    · intro x hx
      have hhead := (List.pairwise_cons.mp hpw).1 x hx
      have htail := hnm x (List.mem_cons.mpr (Or.inr hx))
      constructor
      · rw [List.map_append]
        intro hmem
        rcases List.mem_append.mp hmem with hmem | hmem
        · exact htail.1 hmem
        · have : x.facultyId = e.facultyId := by simpa using hmem
          exact hhead.1 this.symm
      · rw [List.map_append]
        intro hmem
        rcases List.mem_append.mp hmem with hmem | hmem
        · exact htail.2 hmem
        · have : x.roomId = e.roomId := by simpa using hmem
          exact hhead.2 this.symm

theorem detect_of_pairwise (tt : List TimetableEntry)
    (hpw : List.Pairwise KeyNoClash tt) :
    detectConflicts tt = (tt.filter (fun e => !slotSet e)).map unschedConflict := by
  rw [detectConflicts_eq_spec]
  unfold specDetectConflicts
  have hgroups : ∀ k ∈ dedupKeys ((tt.filter slotSet).map cellKey),
      specGroup k [] (groupOf (tt.filter slotSet) k) = [] := by
    intro k hkmem
    apply specGroup_nil
    · have hsub : (groupOf (tt.filter slotSet) k).Sublist tt :=
        (List.filter_sublist _).trans (List.filter_sublist _)
      have hpw2 : List.Pairwise KeyNoClash (groupOf (tt.filter slotSet) k) :=
        List.Pairwise.sublist hsub hpw

      apply List.Pairwise.imp_of_mem ?_ hpw2
      intro a b ha hb hR
      have hamem := List.mem_filter.mp ha
      have hbmem := List.mem_filter.mp hb
      have hsa : slotSet a = true := (List.mem_filter.mp hamem.1).2
      have hsb : slotSet b = true := (List.mem_filter.mp hbmem.1).2
      have hka : cellKey a = k := beq_iff_eq.mp hamem.2
      have hkb : cellKey b = k := beq_iff_eq.mp hbmem.2
      exact hR hsa hsb (by rw [hka, hkb])
    · intro x hx
      simp
  rw [flatMap_nil_of hgroups, List.append_nil]

/-! ### The slot assigner invariant -/

theorem createCourseEntries_unset (facultyL : List Faculty) (roomsL : List Room)
    (now : Nat) (c : Course) (p : Program) (ty : SessionType) (hours : Nat) :
    ∀ e ∈ createCourseEntries facultyL roomsL now c p ty hours, slotSet e = false := by
  intro e he
  rcases hsF : selectFaculty facultyL c p with _ | f
  · rw [createCourseEntries, hsF] at he
    exact absurd he (List.not_mem_nil e)
  rcases hsR : selectRoom roomsL ty with _ | r
  · rw [createCourseEntries, hsF, hsR] at he
    exact absurd he (List.not_mem_nil e)
  rw [createCourseEntries_eq_sel facultyL roomsL now c p ty hours f r hsF hsR] at he
  obtain ⟨i, _, rfl⟩ := List.mem_map.mp he
  rfl

theorem buildEntries_unset (programs : List Program) (facultyL : List Faculty)
    (roomsL : List Room) (now : Nat) :
    ∀ (cs : List Course), ∀ e ∈ buildEntries programs facultyL roomsL now cs,
      slotSet e = false := by
  intro cs
  induction cs with
  | nil => intro e he; exact absurd he (List.not_mem_nil e)
  | cons c rest ih =>
    intro e he
    cases hfind : programs.find? (fun q => q.id == c.program) with
    | none =>
      rw [buildEntries, hfind] at he
      exact ih e he
    | some p =>
      rw [buildEntries, hfind] at he
      rcases List.mem_append.mp he with h1 | h2
      · rcases List.mem_append.mp h1 with h1a | h1b
        · by_cases hth : c.theoryHours > 0
          · rw [if_pos hth] at h1a
            exact createCourseEntries_unset facultyL roomsL now c p .theory c.theoryHours e h1a
          · rw [if_neg hth] at h1a
            exact absurd h1a (List.not_mem_nil e)
        · by_cases hth : c.practicalHours > 0
          · rw [if_pos hth] at h1b
            exact createCourseEntries_unset facultyL roomsL now c p .practical c.practicalHours e h1b
          · rw [if_neg hth] at h1b
            exact absurd h1b (List.not_mem_nil e)
      · exact ih e h2

theorem scheduleAux_invariant (facultyL : List Faculty) (roomsL : List Room) :
    ∀ (entries : List TimetableEntry) (occupied : List (String × String)),
    (∀ e ∈ entries, slotSet e = false) →
    List.Pairwise KeyNoClash (scheduleAux facultyL roomsL entries occupied) ∧
    ∀ x ∈ scheduleAux facultyL roomsL entries occupied, slotSet x = true →
      (cellKey x, facTag x) ∉ occupied ∧ (cellKey x, roomTag x) ∉ occupied := by
  intro entries
  induction entries with
  | nil =>
    intro occupied _
    exact ⟨List.Pairwise.nil, fun x hx => absurd hx (List.not_mem_nil x)⟩
  | cons e rest ih =>
    intro occupied hunset
    have he : slotSet e = false := hunset e (List.mem_cons_self e rest)
    have hrest : ∀ x ∈ rest, slotSet x = false :=
      fun x hx => hunset x (List.mem_cons.mpr (Or.inr hx))
    cases hfind : findCell facultyL roomsL occupied e with
    | none =>
      simp only [scheduleAux, hfind]
      obtain ⟨hpw, hocc⟩ := ih occupied hrest
      refine ⟨List.pairwise_cons.mpr ⟨?_, hpw⟩, ?_⟩
      · intro b _ hse
        rw [he] at hse
        exact Bool.noConfusion hse
      · intro x hx hsx
        rcases List.mem_cons.mp hx with rfl | hx2
        · rw [hsx] at he
          exact Bool.noConfusion he
        · exact hocc x hx2 hsx
    | some c =>
      have hcmem : c ∈ allCells := List.mem_of_find?_eq_some hfind
      have hfree : cellFree facultyL roomsL occupied e c = true := List.find?_some hfind
      have h12 := (Bool.and_eq_true _ _).mp hfree
      obtain ⟨h1, h2⟩ := (Bool.and_eq_true _ _).mp h12.1
      have hnf : (slotKey c.1 c.2, facTag e) ∉ occupied :=
        contains_false_not_mem (not_eq_true_bool h1)
      have hnr : (slotKey c.1 c.2, roomTag e) ∉ occupied :=
        contains_false_not_mem (not_eq_true_bool h2)
      simp only [scheduleAux, hfind]
      obtain ⟨hpw, hocc⟩ :=
        ih (occupied ++ [(slotKey c.1 c.2, facTag e), (slotKey c.1 c.2, roomTag e)]) hrest
      refine ⟨List.pairwise_cons.mpr ⟨?_, hpw⟩, ?_⟩
      · intro b hb
        intro _ hsb hkeq
        have hb2 := hocc b hb hsb
        constructor
        · intro heqf
          apply hb2.1
          have hbe : b.facultyId = e.facultyId := heqf.symm
          have hkb : cellKey b = slotKey c.1 c.2 := hkeq.symm
          rw [hkb]
          have hft : facTag b = facTag e := by
            unfold facTag
            rw [hbe]
          rw [hft]
          exact List.mem_append_right _ (List.mem_cons_self _ _)
        · intro heqr
          apply hb2.2
          have hbe : b.roomId = e.roomId := heqr.symm
          have hkb : cellKey b = slotKey c.1 c.2 := hkeq.symm
          rw [hkb]
          have hrt : roomTag b = roomTag e := by
            unfold roomTag
            rw [hbe]
          rw [hrt]
          apply List.mem_append_right
          exact List.mem_cons.mpr (Or.inr (List.mem_cons_self _ _))
      · intro x hx hsx
        rcases List.mem_cons.mp hx with rfl | hx2
        · exact ⟨hnf, hnr⟩
        · obtain ⟨ha, hb⟩ := hocc x hx2 hsx
          exact ⟨fun hmem => ha (List.mem_append_left _ hmem),
            fun hmem => hb (List.mem_append_left _ hmem)⟩

/-! ### Claim C1: assignment respects the collision invariant -/

theorem ne_nil_of_beq_false {α : Type} {l : List α} (h : ¬ ((l.length == 0) = true)) :
    l ≠ [] := by
  intro hl
  apply h
  rw [hl]
  rfl

/-- C1: on every input, among the sessions the assigner leaves with a set
slot no two sharing a faculty id or a room id occupy the same (day, time)
cell, and the detector run on the assigner's output returns exactly the
"could not be scheduled" conflicts of the unscheduled sessions — zero
faculty-collision and zero room-collision conflicts. -/
theorem claim1_assign_then_detect_clean (programs : List Program)
    (courses : List Course) (facultyL : List Faculty) (roomsL : List Room)
    (sel : List String) (now : Nat) :
    List.Pairwise NoPairClash
      (generateTimetable programs courses facultyL roomsL sel now).timetable ∧
    (generateTimetable programs courses facultyL roomsL sel now).conflicts =
      ((generateTimetable programs courses facultyL roomsL sel now).timetable.filter
        (fun e => !slotSet e)).map unschedConflict := by
  by_cases hempty : (programs.length == 0 || courses.length == 0 ||
      facultyL.length == 0 || roomsL.length == 0) = true
  · simp only [generateTimetable, if_pos hempty]
    exact ⟨List.Pairwise.nil, rfl⟩
  · by_cases hrel : (((courses.filter
        (fun course => sel.contains course.program)).length == 0) = true)
    · simp only [generateTimetable, if_neg hempty, if_pos hrel]
      exact ⟨List.Pairwise.nil, rfl⟩
    · simp only [Bool.or_eq_true, not_or] at hempty
      obtain ⟨⟨⟨h1, h2⟩, h3⟩, h4⟩ := hempty
      rw [generateTimetable_main programs courses facultyL roomsL sel now
        (ne_nil_of_beq_false h1) (ne_nil_of_beq_false h2) (ne_nil_of_beq_false h3)
        (ne_nil_of_beq_false h4) (ne_nil_of_beq_false hrel)]
      have hKey : List.Pairwise KeyNoClash
          (mainTimetable programs courses facultyL roomsL sel now) :=
        (scheduleAux_invariant facultyL roomsL
          (buildEntries programs facultyL roomsL now
            (sortCourses courseLE (courses.filter (fun course => sel.contains course.program))))
          []
          (fun e he => buildEntries_unset programs facultyL roomsL now _ e he)).1
      constructor
      · exact List.Pairwise.imp
          (fun {a b} h hsa hsb hd ht =>
            h hsa hsb (by unfold cellKey slotKey; rw [hd, ht]))
          hKey
      · exact detect_of_pairwise _ hKey

/-! ### Claim C6: the detector's exact output -/

/-- C6: on every (possibly partially assigned) session list the detector
emits exactly one high-severity unscheduled conflict per slotless session in
input order, then groups the scheduled sessions by cell in first-occurrence
order and walks each group in original order, emitting one faculty conflict
for every session whose faculty id already occurred earlier in its group and
one room conflict per repeated room id, with no deduplication. -/
theorem claim6_detector_exact (timetable : List TimetableEntry) :
    detectConflicts timetable = specDetectConflicts timetable :=
  detectConflicts_eq_spec timetable

/-! ### Claim C10: conflict record shapes -/

theorem groupAux_mem (slot : String) (es : List TimetableEntry) :
    ∀ (fids rids : List String) (cs : List Constraint) (c : Constraint),
    c ∈ groupConflictsAux slot es fids rids cs →
    c ∈ cs ∨ ∃ e s, c = facultyCollision e s ∨ c = roomCollision e s := by
  induction es with
  | nil =>
    intro fids rids cs c hc
    exact Or.inl hc
  | cons e rest ih =>
    intro fids rids cs c hc
    rw [groupConflictsAux] at hc
    rcases ih _ _ _ c hc with hmem | hshape
    · by_cases hf : (fids.contains e.facultyId) = true <;>
        by_cases hr : (rids.contains e.roomId) = true
      · rw [if_pos hf, if_pos hr] at hmem
        rcases List.mem_append.mp hmem with hm | hm
        · rcases List.mem_append.mp hm with hm2 | hm2
          · exact Or.inl hm2
          · exact Or.inr ⟨e, slot, Or.inl (by simpa using hm2)⟩
        · exact Or.inr ⟨e, slot, Or.inr (by simpa using hm)⟩
      · rw [if_pos hf, if_neg hr] at hmem
        rcases List.mem_append.mp hmem with hm | hm
        · exact Or.inl hm
        · exact Or.inr ⟨e, slot, Or.inl (by simpa using hm)⟩
      · rw [if_neg hf, if_pos hr] at hmem
        rcases List.mem_append.mp hmem with hm | hm
        · exact Or.inl hm
        · exact Or.inr ⟨e, slot, Or.inr (by simpa using hm)⟩
      · rw [if_neg hf, if_neg hr] at hmem
        exact Or.inl hmem
    · exact Or.inr hshape

theorem groupsFold_mem (m : List (String × List TimetableEntry)) :
    ∀ (cs : List Constraint) (c : Constraint), c ∈ groupsFold m cs →
    c ∈ cs ∨ ∃ e s, c = facultyCollision e s ∨ c = roomCollision e s := by
  induction m with
  | nil =>
    intro cs c hc
    exact Or.inl hc
  | cons kv rest ih =>
    intro cs c hc
    rw [groupsFold] at hc
    rcases ih _ c hc with hmem | hshape
    · exact groupAux_mem kv.1 kv.2 [] [] cs c hmem
    · exact Or.inr hshape

/-- C10: every conflict the detector returns has severity high and kind
faculty-conflict or room-conflict — the student/availability kinds and the
medium/low severities are never emitted — and an unscheduled session is
reported under the kind faculty-conflict. -/
theorem claim10_conflict_shapes (tt : List TimetableEntry) (e : TimetableEntry)
    (hse : slotSet e = false) :
    (∀ c ∈ detectConflicts tt, c.severity = Severity.high ∧
      (c.type = ConstraintType.faculty_conflict ∨ c.type = ConstraintType.room_conflict)) ∧
    detectConflicts [e] = [unschedConflict e] ∧
    (unschedConflict e).type = ConstraintType.faculty_conflict := by
  refine ⟨?_, ?_, rfl⟩
  · intro c hc
    have hc2 : c ∈ groupsFold (buildSlotMap tt [] []).1 (buildSlotMap tt [] []).2 := hc
    rcases groupsFold_mem _ _ c hc2 with hmem | hshape
    · rw [buildSlotMap_nil_run] at hmem
      obtain ⟨x, _, rfl⟩ := List.mem_map.mp hmem
      exact ⟨rfl, Or.inl rfl⟩
    · obtain ⟨x, s, h | h⟩ := hshape
      · rw [h]
        exact ⟨rfl, Or.inl rfl⟩
      · rw [h]
        exact ⟨rfl, Or.inr rfl⟩
  · have hone : buildSlotMap [e] [] [] = ([], [unschedConflict e]) := by
      rw [buildSlotMap, if_neg (bool_ne_true hse)]
      rfl
    show groupsFold (buildSlotMap [e] [] []).1 (buildSlotMap [e] [] []).2 = _
    rw [hone]
    rfl

/-! ### Claim C8: determinism modulo session identifiers -/

theorem eraseId_setSlot {e1 e2 : TimetableEntry} (s : TimeSlot)
    (h : eraseId e1 = eraseId e2) :
    eraseId { e1 with timeSlot := s } = eraseId { e2 with timeSlot := s } :=
  congrArg (fun x => { x with timeSlot := s }) h

theorem eraseId_facultyId (e : TimetableEntry) : (eraseId e).facultyId = e.facultyId := rfl

theorem eraseId_roomId (e : TimetableEntry) : (eraseId e).roomId = e.roomId := rfl

theorem eraseId_facultyName (e : TimetableEntry) : (eraseId e).facultyName = e.facultyName := rfl

theorem eraseId_roomName (e : TimetableEntry) : (eraseId e).roomName = e.roomName := rfl

theorem facultyId_of_eraseId {e1 e2 : TimetableEntry} (h : eraseId e1 = eraseId e2) :
    e1.facultyId = e2.facultyId := by
  rw [← eraseId_facultyId e1, ← eraseId_facultyId e2, h]

theorem roomId_of_eraseId {e1 e2 : TimetableEntry} (h : eraseId e1 = eraseId e2) :
    e1.roomId = e2.roomId := by
  rw [← eraseId_roomId e1, ← eraseId_roomId e2, h]

theorem facultyName_of_eraseId {e1 e2 : TimetableEntry} (h : eraseId e1 = eraseId e2) :
    e1.facultyName = e2.facultyName := by
  rw [← eraseId_facultyName e1, ← eraseId_facultyName e2, h]

theorem roomName_of_eraseId {e1 e2 : TimetableEntry} (h : eraseId e1 = eraseId e2) :
    e1.roomName = e2.roomName := by
  rw [← eraseId_roomName e1, ← eraseId_roomName e2, h]

theorem findCell_congr (facultyL : List Faculty) (roomsL : List Room)
    (occ : List (String × String)) {e1 e2 : TimetableEntry}
    (h : eraseId e1 = eraseId e2) :
    findCell facultyL roomsL occ e1 = findCell facultyL roomsL occ e2 := by
  have hfid := facultyId_of_eraseId h
  have hrid := roomId_of_eraseId h
  unfold findCell
  congr 1
  funext c
  simp only [cellFree, facTag, roomTag, hfid, hrid]

theorem scheduleAux_congr (facultyL : List Faculty) (roomsL : List Room) :
    ∀ (es1 es2 : List TimetableEntry) (occ : List (String × String)),
    es1.map eraseId = es2.map eraseId →
    (scheduleAux facultyL roomsL es1 occ).map eraseId =
      (scheduleAux facultyL roomsL es2 occ).map eraseId := by
  intro es1
  induction es1 with
  | nil =>
    intro es2 occ h
    cases es2 with
    | nil => rfl
    | cons e2 r2 => exact absurd h (by simp)
  | cons e1 r1 ih =>
    intro es2 occ h
    cases es2 with
    | nil => exact absurd h (by simp)
    | cons e2 r2 =>
      rw [List.map_cons, List.map_cons] at h
      injection h with hh ht
      have hfc := findCell_congr facultyL roomsL occ hh
      have hft : facTag e1 = facTag e2 := by
        unfold facTag
        rw [facultyId_of_eraseId hh]
      have hrt : roomTag e1 = roomTag e2 := by
        unfold roomTag
        rw [roomId_of_eraseId hh]
      cases hfix : findCell facultyL roomsL occ e2 with
      | some c =>
        have h1 : findCell facultyL roomsL occ e1 = some c := by rw [hfc, hfix]
        simp only [scheduleAux, h1, hfix, List.map_cons]
        rw [eraseId_setSlot ⟨c.1, c.2, 1⟩ hh, hft, hrt]
        exact congrArg (List.cons _) (ih r2 _ ht)
      | none =>
        have h1 : findCell facultyL roomsL occ e1 = none := by rw [hfc, hfix]
        simp only [scheduleAux, h1, hfix, List.map_cons]
        rw [hh]
        exact congrArg (List.cons _) (ih r2 occ ht)

theorem map_eraseId_congr {α : Type} (g : TimetableEntry → α)
    (hg : ∀ e, g (eraseId e) = g e) :
    ∀ (l1 l2 : List TimetableEntry), l1.map eraseId = l2.map eraseId →
    l1.map g = l2.map g := by
  intro l1
  induction l1 with
  | nil =>
    intro l2 h
    cases l2 with
    | nil => rfl
    | cons e2 r2 => exact absurd h (by simp)
  | cons e1 r1 ih =>
    intro l2 h
    cases l2 with
    | nil => exact absurd h (by simp)
    | cons e2 r2 =>
      rw [List.map_cons, List.map_cons] at h
      injection h with hh ht
      rw [List.map_cons, List.map_cons]
      rw [← hg e1, hh, hg e2]
      exact congrArg (List.cons _) (ih r2 ht)

theorem filter_eraseId_congr (p : TimetableEntry → Bool)
    (hp : ∀ e, p (eraseId e) = p e) :
    ∀ (l1 l2 : List TimetableEntry), l1.map eraseId = l2.map eraseId →
    (l1.filter p).map eraseId = (l2.filter p).map eraseId := by
  intro l1
  induction l1 with
  | nil =>
    intro l2 h
    cases l2 with
    | nil => rfl
    | cons e2 r2 => exact absurd h (by simp)
  | cons e1 r1 ih =>
    intro l2 h
    cases l2 with
    | nil => exact absurd h (by simp)
    | cons e2 r2 =>
      rw [List.map_cons, List.map_cons] at h
      injection h with hh ht
      have hpe : p e1 = p e2 := by rw [← hp e1, hh, hp e2]
      rw [List.filter_cons, List.filter_cons]
      cases hp2 : p e2 with
      | true =>
        rw [hpe, hp2]
        simp only [if_pos]
        rw [List.map_cons, List.map_cons, hh]
        exact congrArg (List.cons _) (ih r2 ht)
      | false =>
        rw [hpe, hp2]
        simp only [Bool.false_eq_true, if_neg, if_false]
        exact ih r2 ht

theorem specGroup_congr (slot : String) :
    ∀ (es1 es2 earlier1 earlier2 : List TimetableEntry),
    es1.map eraseId = es2.map eraseId →
    earlier1.map eraseId = earlier2.map eraseId →
    specGroup slot earlier1 es1 = specGroup slot earlier2 es2 := by
  intro es1
  induction es1 with
  | nil =>
    intro es2 earlier1 earlier2 h _
    cases es2 with
    | nil => rfl
    | cons e2 r2 => exact absurd h (by simp)
  | cons e1 r1 ih =>
    intro es2 earlier1 earlier2 h hearl
    cases es2 with
    | nil => exact absurd h (by simp)
    | cons e2 r2 =>
      rw [List.map_cons, List.map_cons] at h
      injection h with hh ht
      have hfid : e1.facultyId = e2.facultyId := facultyId_of_eraseId hh
      have hrid : e1.roomId = e2.roomId := roomId_of_eraseId hh
      have hfname : e1.facultyName = e2.facultyName := facultyName_of_eraseId hh
      have hrname : e1.roomName = e2.roomName := roomName_of_eraseId hh
      have hfids : earlier1.map (fun x => x.facultyId) = earlier2.map (fun x => x.facultyId) :=
        map_eraseId_congr (fun x => x.facultyId) (fun e => rfl) earlier1 earlier2 hearl
      have hrids : earlier1.map (fun x => x.roomId) = earlier2.map (fun x => x.roomId) :=
        map_eraseId_congr (fun x => x.roomId) (fun e => rfl) earlier1 earlier2 hearl
      rw [specGroup, specGroup, hfids, hrids, hfid, hrid]
      have hfc : facultyCollision e1 slot = facultyCollision e2 slot := by
        unfold facultyCollision
        rw [hfname]
      have hrc : roomCollision e1 slot = roomCollision e2 slot := by
        unfold roomCollision
        rw [hrname]
      rw [hfc, hrc, ih r2 (earlier1 ++ [e1]) (earlier2 ++ [e2]) ht
        (by rw [List.map_append, List.map_append, hearl, List.map_cons, List.map_nil, hh]; rfl)]

theorem specDetect_congr (tt1 tt2 : List TimetableEntry)
    (h : tt1.map eraseId = tt2.map eraseId) :
    specDetectConflicts tt1 = specDetectConflicts tt2 := by
  unfold specDetectConflicts
  have hfilterU := filter_eraseId_congr (fun e => !slotSet e) (fun e => rfl) tt1 tt2 h
  have hunsched : (tt1.filter (fun e => !slotSet e)).map unschedConflict =
      (tt2.filter (fun e => !slotSet e)).map unschedConflict :=
    map_eraseId_congr unschedConflict (fun e => rfl) _ _ hfilterU
  have hfilterS := filter_eraseId_congr slotSet (fun e => rfl) tt1 tt2 h
  have hkeys : (tt1.filter slotSet).map cellKey = (tt2.filter slotSet).map cellKey :=
    map_eraseId_congr cellKey (fun e => rfl) _ _ hfilterS
  rw [hunsched, hkeys]
  congr 1
  have hfun : (fun k => specGroup k [] (groupOf (tt1.filter slotSet) k)) =
      (fun k => specGroup k [] (groupOf (tt2.filter slotSet) k)) := by
    funext k
    exact specGroup_congr k _ _ [] []
      (filter_eraseId_congr (fun e => cellKey e == k) (fun e => rfl) _ _ hfilterS) rfl
  rw [hfun]

theorem detect_congr (tt1 tt2 : List TimetableEntry)
    (h : tt1.map eraseId = tt2.map eraseId) :
    detectConflicts tt1 = detectConflicts tt2 := by
  rw [detectConflicts_eq_spec, detectConflicts_eq_spec]
  exact specDetect_congr tt1 tt2 h

theorem createCourseEntries_eraseId (facultyL : List Faculty) (roomsL : List Room)
    (now1 now2 : Nat) (c : Course) (p : Program) (ty : SessionType) (hours : Nat) :
    (createCourseEntries facultyL roomsL now1 c p ty hours).map eraseId =
      (createCourseEntries facultyL roomsL now2 c p ty hours).map eraseId := by
  rcases hsF : selectFaculty facultyL c p with _ | f
  · simp only [createCourseEntries, hsF]
  rcases hsR : selectRoom roomsL ty with _ | r
  · simp only [createCourseEntries, hsF, hsR]
  rw [createCourseEntries_eq_sel facultyL roomsL now1 c p ty hours f r hsF hsR,
    createCourseEntries_eq_sel facultyL roomsL now2 c p ty hours f r hsF hsR,
    List.map_map, List.map_map]
  apply List.map_congr_left
  intro i _
  rfl

theorem buildEntries_eraseId (programs : List Program) (facultyL : List Faculty)
    (roomsL : List Room) (now1 now2 : Nat) :
    ∀ (cs : List Course),
    (buildEntries programs facultyL roomsL now1 cs).map eraseId =
      (buildEntries programs facultyL roomsL now2 cs).map eraseId := by
  intro cs
  induction cs with
  | nil => rfl
  | cons c rest ih =>
    cases hfind : programs.find? (fun q => q.id == c.program) with
    | none =>
      simp only [buildEntries, hfind]
      exact ih
    | some p =>
      simp only [buildEntries, hfind]
      rw [List.map_append, List.map_append, List.map_append, List.map_append]
      have hA : (if c.theoryHours > 0 then
            createCourseEntries facultyL roomsL now1 c p .theory c.theoryHours
          else []).map eraseId =
          (if c.theoryHours > 0 then
            createCourseEntries facultyL roomsL now2 c p .theory c.theoryHours
          else []).map eraseId := by
        by_cases hth : c.theoryHours > 0
        · rw [if_pos hth, if_pos hth]
          exact createCourseEntries_eraseId facultyL roomsL now1 now2 c p .theory c.theoryHours
        · rw [if_neg hth, if_neg hth]
      have hB : (if c.practicalHours > 0 then
            createCourseEntries facultyL roomsL now1 c p .practical c.practicalHours
          else []).map eraseId =
          (if c.practicalHours > 0 then
            createCourseEntries facultyL roomsL now2 c p .practical c.practicalHours
          else []).map eraseId := by
        by_cases hth : c.practicalHours > 0
        · rw [if_pos hth, if_pos hth]
          exact createCourseEntries_eraseId facultyL roomsL now1 now2 c p .practical c.practicalHours
        · rw [if_neg hth, if_neg hth]
      rw [hA, hB, ih]

/-- C8: two runs of the generation call on identical catalogs and selections
(differing only in the timestamp woven into session identifiers) produce
session lists equal in every field except the identifier, and equal conflict
lists, success flags, and messages. -/
theorem claim8_pipeline_deterministic (programs : List Program)
    (courses : List Course) (facultyL : List Faculty) (roomsL : List Room)
    (sel : List String) (now1 now2 : Nat) :
    (generateTimetable programs courses facultyL roomsL sel now1).timetable.map eraseId =
      (generateTimetable programs courses facultyL roomsL sel now2).timetable.map eraseId ∧
    (generateTimetable programs courses facultyL roomsL sel now1).conflicts =
      (generateTimetable programs courses facultyL roomsL sel now2).conflicts ∧
    (generateTimetable programs courses facultyL roomsL sel now1).success =
      (generateTimetable programs courses facultyL roomsL sel now2).success ∧
    (generateTimetable programs courses facultyL roomsL sel now1).message =
      (generateTimetable programs courses facultyL roomsL sel now2).message := by
  by_cases hempty : (programs.length == 0 || courses.length == 0 ||
      facultyL.length == 0 || roomsL.length == 0) = true
  · simp only [generateTimetable, if_pos hempty]
    exact ⟨trivial, trivial, trivial, trivial⟩
  · by_cases hrel : (((courses.filter
        (fun course => sel.contains course.program)).length == 0) = true)
    · simp only [generateTimetable, if_neg hempty, if_pos hrel]
      exact ⟨trivial, trivial, trivial, trivial⟩
    · simp only [Bool.or_eq_true, not_or] at hempty
      obtain ⟨⟨⟨h1, h2⟩, h3⟩, h4⟩ := hempty
      rw [generateTimetable_main programs courses facultyL roomsL sel now1
        (ne_nil_of_beq_false h1) (ne_nil_of_beq_false h2) (ne_nil_of_beq_false h3)
        (ne_nil_of_beq_false h4) (ne_nil_of_beq_false hrel),
        generateTimetable_main programs courses facultyL roomsL sel now2
        (ne_nil_of_beq_false h1) (ne_nil_of_beq_false h2) (ne_nil_of_beq_false h3)
        (ne_nil_of_beq_false h4) (ne_nil_of_beq_false hrel)]
      have htt : (mainTimetable programs courses facultyL roomsL sel now1).map eraseId =
          (mainTimetable programs courses facultyL roomsL sel now2).map eraseId :=
        scheduleAux_congr facultyL roomsL _ _ []
          (buildEntries_eraseId programs facultyL roomsL now1 now2 _)
      have hconf : detectConflicts (mainTimetable programs courses facultyL roomsL sel now1) =
          detectConflicts (mainTimetable programs courses facultyL roomsL sel now2) :=
        detect_congr _ _ htt
      refine ⟨htt, hconf, ?_, ?_⟩
      · exact congrArg
          (fun cs => ((cs.filter (fun c => c.severity == Severity.high)).length == 0 : Bool))
          hconf
      · exact congrArg
          (fun cs => if cs.length == 0 then
            "Timetable generated successfully without conflicts!"
          else
            "Timetable generated with " ++ toString cs.length ++
              " conflicts. Please review and resolve.")
          hconf

/-! ### Witnesses at the concrete sample catalog -/

/-- Witness for C2 at the sample catalog. -/
theorem claim2_expander_session_counts_witness :
    ∃ ft rt fp rp, ft ∈ [sampleFaculty] ∧ rt ∈ [sampleRoom] ∧
      fp ∈ [sampleFaculty] ∧ rp ∈ [sampleRoom] ∧
      createCourseEntries [sampleFaculty] [sampleRoom] 0 sampleCourse sampleProgram
          .theory sampleCourse.theoryHours =
        (List.range sampleCourse.theoryHours).map
          (fun i => mkEntry sampleCourse sampleProgram .theory ft rt i 0) ∧
      createCourseEntries [sampleFaculty] [sampleRoom] 0 sampleCourse sampleProgram
          .practical sampleCourse.practicalHours =
        (List.range sampleCourse.practicalHours).map
          (fun i => mkEntry sampleCourse sampleProgram .practical fp rp i 0) ∧
      (createCourseEntries [sampleFaculty] [sampleRoom] 0 sampleCourse sampleProgram
        .theory sampleCourse.theoryHours).length = sampleCourse.theoryHours ∧
      (createCourseEntries [sampleFaculty] [sampleRoom] 0 sampleCourse sampleProgram
        .practical sampleCourse.practicalHours).length = sampleCourse.practicalHours ∧
      (∀ e ∈ createCourseEntries [sampleFaculty] [sampleRoom] 0 sampleCourse sampleProgram
          .theory sampleCourse.theoryHours,
        e.type = .theory ∧ e.timeSlot = ⟨"", "", 1⟩ ∧ e.courseId = sampleCourse.id ∧
          e.facultyId = ft.id ∧ e.roomId = rt.id ∧
          eraseId e = eraseId (mkEntry sampleCourse sampleProgram .theory ft rt 0 0)) ∧
      (∀ e ∈ createCourseEntries [sampleFaculty] [sampleRoom] 0 sampleCourse sampleProgram
          .practical sampleCourse.practicalHours,
        e.type = .practical ∧ e.timeSlot = ⟨"", "", 1⟩ ∧ e.courseId = sampleCourse.id ∧
          e.facultyId = fp.id ∧ e.roomId = rp.id ∧
          eraseId e = eraseId (mkEntry sampleCourse sampleProgram .practical fp rp 0 0)) ∧
      buildEntries [sampleProgram] [sampleFaculty] [sampleRoom] 0 (sampleCourse :: []) =
        createCourseEntries [sampleFaculty] [sampleRoom] 0 sampleCourse sampleProgram
          .theory sampleCourse.theoryHours ++
        createCourseEntries [sampleFaculty] [sampleRoom] 0 sampleCourse sampleProgram
          .practical sampleCourse.practicalHours ++
        buildEntries [sampleProgram] [sampleFaculty] [sampleRoom] 0 [] :=
  claim2_expander_session_counts [sampleProgram] [sampleFaculty] [sampleRoom] 0
    sampleCourse sampleProgram [] (by decide) (by decide) (by decide)

/-- Witness for C3 at the sample catalog. -/
theorem claim3_first_fit_cell_witness :
    (∃ d t pre post,
      allCells = pre ++ (d, t) :: post ∧
      (∀ c ∈ pre, goodCellFor [] sampleEntry sampleFaculty sampleRoom c = false) ∧
      goodCellFor [] sampleEntry sampleFaculty sampleRoom (d, t) = true ∧
      scheduleAux [sampleFaculty] [sampleRoom] (sampleEntry :: []) [] =
        { sampleEntry with timeSlot := ⟨d, t, 1⟩ } ::
          scheduleAux [sampleFaculty] [sampleRoom] []
            ([] ++ [(slotKey d t, facTag sampleEntry), (slotKey d t, roomTag sampleEntry)])) ∨
    ((∀ c ∈ allCells, goodCellFor [] sampleEntry sampleFaculty sampleRoom c = false) ∧
      scheduleAux [sampleFaculty] [sampleRoom] (sampleEntry :: []) [] =
        sampleEntry :: scheduleAux [sampleFaculty] [sampleRoom] [] []) :=
  claim3_first_fit_cell [sampleFaculty] [sampleRoom] [] sampleEntry []
    sampleFaculty sampleRoom (by decide) (by decide)

/-- Witness for the amended C4 at the sample catalog. -/
theorem claim4_success_iff_no_high_witness :
    (generateTimetable [sampleProgram] [sampleCourse] [sampleFaculty] [sampleRoom]
      ["p1"] 0).success = true ↔
      ∀ c ∈ (generateTimetable [sampleProgram] [sampleCourse] [sampleFaculty] [sampleRoom]
        ["p1"] 0).conflicts, c.severity ≠ Severity.high :=
  claim4_success_iff_no_high [sampleProgram] [sampleCourse] [sampleFaculty] [sampleRoom]
    ["p1"] 0 (by decide) (by decide) (by decide) (by decide) (by decide)

/-- Witness for C5 with an empty program catalog. -/
theorem claim5_empty_input_handling_witness :
    (generateTimetable [] [sampleCourse] [sampleFaculty] [sampleRoom] ["p1"] 0).timetable = [] ∧
    (generateTimetable [] [sampleCourse] [sampleFaculty] [sampleRoom] ["p1"] 0).conflicts = [] ∧
    (generateTimetable [] [sampleCourse] [sampleFaculty] [sampleRoom] ["p1"] 0).success = false ∧
    ((generateTimetable [] [sampleCourse] [sampleFaculty] [sampleRoom] ["p1"] 0).message =
        "Please ensure you have added programs, courses, faculty, and rooms before generating timetable." ∨
      (generateTimetable [] [sampleCourse] [sampleFaculty] [sampleRoom] ["p1"] 0).message =
        "No courses found for selected programs.") :=
  claim5_empty_input_handling [] [sampleCourse] [sampleFaculty] [sampleRoom] ["p1"] 0
    (Or.inl rfl)

/-- Witness for C7 at the sample catalog. -/
theorem claim7_room_category_witness :
    ∃ room, room ∈ [sampleRoom] ∧ sampleEntry.roomId = room.id ∧
      sampleEntry.roomName = room.name ∧
      ((∃ r2 ∈ [sampleRoom], roomMatches .theory r2 = true) →
        roomMatches .theory room = true) ∧
      ((∀ r2 ∈ [sampleRoom], roomMatches .theory r2 = false) →
        ([sampleRoom] : List Room).head? = some room) :=
  claim7_room_category [sampleFaculty] [sampleRoom] 0 sampleCourse sampleProgram
    .theory 2 sampleEntry (by decide)

/-- Witness for C9 with a course whose program id is unknown. -/
theorem claim9_orphan_course_skipped_witness :
    buildEntries [sampleProgram] [sampleFaculty] [sampleRoom] 0
        (orphanCourse :: [sampleCourse]) =
      buildEntries [sampleProgram] [sampleFaculty] [sampleRoom] 0 [sampleCourse] :=
  claim9_orphan_course_skipped [sampleProgram] [sampleFaculty] [sampleRoom] 0
    orphanCourse [sampleCourse] (by decide)

/-- Witness for C10 at a concrete unscheduled session. -/
theorem claim10_conflict_shapes_witness :
    (∀ c ∈ detectConflicts [sampleEntry], c.severity = Severity.high ∧
      (c.type = ConstraintType.faculty_conflict ∨ c.type = ConstraintType.room_conflict)) ∧
    detectConflicts [sampleEntry] = [unschedConflict sampleEntry] ∧
    (unschedConflict sampleEntry).type = ConstraintType.faculty_conflict :=
  claim10_conflict_shapes [sampleEntry] sampleEntry (by decide)

end Schedulify
